import Mathlib

/-!
Verification development for `canmonitor/source_handler.py`.

The Python module is shallowly embedded below.  Bytes and text are both
modelled as `List Char` (every byte value fits in a `Char`); Python floats
are modelled as exact rationals `ℚ` (all timestamps appearing in the claims
are exactly representable); exceptions are modelled by the `PyErr` error
type of an `Except`; the `time.sleep` side effect is recorded in an explicit
log of requested sleep durations, and a negative requested duration is
modelled as the `ValueError` that CPython's `time.sleep` raises for negative
arguments.
-/

/-- Errors the embedded code can signal.  `invalidFrame` is the module's own
`InvalidFrame` exception (carrying its message), `valueError` is a bare
Python `ValueError` (as raised by `float(...)` on a malformed literal and by
`time.sleep` on a negative duration), `eofError` is `EOFError`. -/
inductive PyErr where
  | invalidFrame (msg : List Char)
  | valueError
  | eofError
deriving DecidableEq

def pyErrIsInvalidFrame : PyErr → Bool
  | .invalidFrame _ => true
  | _ => false

def pyErrIsEOF : PyErr → Bool
  | .eofError => true
  | _ => false

/-- The newline character. -/
def nlChar : Char := Char.ofNat 10

/-- Single quote. -/
def qsingle : Char := Char.ofNat 39

/-- Double quote. -/
def qdouble : Char := Char.ofNat 34

/-- Backslash. -/
def bslash : Char := Char.ofNat 92

/-- ASCII whitespace as stripped by Python's `int()` constructor. -/
def isPyWs (c : Char) : Bool :=
  c == ' ' || c == Char.ofNat 9 || c == nlChar || c == Char.ofNat 13 ||
    c == Char.ofNat 11 || c == Char.ofNat 12

/-- Value of a decimal digit string (digits already validated). -/
def decValAux : Nat → List Char → Nat
  | acc, [] => acc
  | acc, c :: r => decValAux (10 * acc + (c.toNat - 48)) r

def decVal (s : List Char) : Nat := decValAux 0 s

/-- After the leading digit: Python's integer-literal tail, digits with
single underscores allowed only between digits. -/
def usTail : List Char → Bool
  | [] => true
  | c :: r =>
    if c = '_' then
      match r with
      | [] => false
      | d :: r2 => d.isDigit && usTail r2
    else c.isDigit && usTail r

/-- Digit group shape accepted by Python's `int()`: nonempty, starts with a
digit, single underscores only between digits. -/
def usOk : List Char → Bool
  | [] => false
  | c :: r => c.isDigit && usTail r

/-- `bytes.strip()` of surrounding ASCII whitespace, as `int()` performs. -/
def pyStrip (s : List Char) : List Char :=
  ((s.dropWhile isPyWs).reverse.dropWhile isPyWs).reverse

def intCore (s : List Char) : Option Nat :=
  if usOk s then some (decVal (s.filter (fun c => c != '_'))) else none

/-- Python `int(b, 10)` on a byte string: strip ASCII whitespace, optional
sign, then digits (with legal underscores); `none` models `ValueError`. -/
def pyIntDec (s : List Char) : Option Int :=
  let t := pyStrip s
  if t.head? = some '+' then (intCore (t.drop 1)).map (fun n => (n : Int))
  else if t.head? = some '-' then (intCore (t.drop 1)).map (fun n => -(n : Int))
  else (intCore t).map (fun n => (n : Int))

/-- Value of one hex digit, either case, `none` for non-hex characters. -/
def hexDigitVal? (c : Char) : Option Nat :=
  if c.isDigit then some (c.toNat - 48)
  else if 'a' ≤ c && c ≤ 'f' then some (c.toNat - 87)
  else if 'A' ≤ c && c ≤ 'F' then some (c.toNat - 55)
  else none

def hexDV (c : Char) : Nat := (hexDigitVal? c).getD 0

def hexValAux : Nat → List Char → Option Nat
  | acc, [] => some acc
  | acc, c :: r =>
    match hexDigitVal? c with
    | some d => hexValAux (16 * acc + d) r
    | none => none

/-- Python `int(s, 16)`: nonempty hex digit string (the only shapes this
module can feed it; sign/prefix/whitespace forms are unreachable here). -/
def pyIntHex (s : List Char) : Option Nat :=
  if s = [] then none else hexValAux 0 s

/-- Total base-16 value used to state results (agrees with `pyIntHex` on
valid hex strings). -/
def hexValT (s : List Char) : Nat := s.foldl (fun a c => 16 * a + hexDV c) 0

/-- Decode pairs of hex digits to bytes; `none` on an odd digit count or a
non-hex character.  This is `binascii.unhexlify` (whose failure,
`binascii.Error`, is a `ValueError`), and also `bytes.fromhex` on the
whitespace-free strings this module passes to it. -/
def unhexCore : List Char → Option (List Nat)
  | [] => some []
  | [_] => none
  | c1 :: c2 :: r => do
    let h ← hexDigitVal? c1
    let l ← hexDigitVal? c2
    let t ← unhexCore r
    pure ((16 * h + l) :: t)

def pyUnhexlify (s : List Char) : Option (List Nat) := unhexCore s

/-- Printable ASCII range used by `repr` of a bytes object. -/
def printableAscii (c : Char) : Bool := 32 ≤ c.toNat && c.toNat ≤ 126

def hexLowerChar (n : Nat) : Char :=
  if n < 10 then Char.ofNat (48 + n) else Char.ofNat (87 + n)

def escByte (q : Char) (c : Char) : List Char :=
  if c = bslash then [bslash, bslash]
  else if c = q then [bslash, q]
  else if c = Char.ofNat 9 then [bslash, 't']
  else if c = nlChar then [bslash, 'n']
  else if c = Char.ofNat 13 then [bslash, 'r']
  else if printableAscii c then [c]
  else [bslash, 'x', hexLowerChar (c.toNat / 16), hexLowerChar (c.toNat % 16)]

def concatAll : List (List Char) → List Char
  | [] => []
  | a :: r => a ++ concatAll r

/-- Python `repr` of a bytes object, as produced when a bytes value is
interpolated by `str.format` into the module's error messages. -/
def pyBytesRepr (s : List Char) : List Char :=
  let q := if s.contains qsingle && !(s.contains qdouble) then qdouble else qsingle
  'b' :: q :: (concatAll (s.map (escByte q)) ++ [q])

/-- First-colon split: `some (before, after)`, or `none` if no colon. -/
def breakColon : List Char → Option (List Char × List Char)
  | [] => none
  | c :: r =>
    if c = ':' then some ([], r)
    else (breakColon r).map (fun pq => (c :: pq.1, pq.2))

/-- Python `line.split(b':', maxsplit=n)`. -/
def splitLimit : List Char → Nat → List (List Char)
  | l, 0 => [l]
  | l, n + 1 =>
    match breakColon l with
    | none => [l]
    | some (p, q) => p :: splitLimit q n

/-- The `try` block of `SerialHandler._parse`: index the token list, parse
the ID after the 3-character `ID=` slice and the length after the
4-character `LEN=` slice as decimals, remove colons from the data token and
hex-decode it.  `none` collapses the caught `IndexError`/`ValueError`. -/
def serialTry (frame : List (List Char)) : Option (Int × Int × List Nat) := do
  let t1 ← frame.get? 1
  let fid ← pyIntDec (t1.drop 3)
  let t2 ← frame.get? 2
  let flen ← pyIntDec (t2.drop 4)
  let t3 ← frame.get? 3
  let dat ← pyUnhexlify (t3.filter (fun c => c != ':'))
  pure (fid, flen, dat)

def msgInvalidFrame (line : List Char) : List Char :=
  "Invalid frame ".data ++ pyBytesRepr line

def msgWrongLength (line : List Char) : List Char :=
  "Wrong frame length or invalid data: ".data ++ pyBytesRepr line

/-- `SerialHandler._parse`: split on at most three colons, run the `try`
block (any failure raises `InvalidFrame "Invalid frame {line}"`), then
check the decoded byte count against the declared length (mismatch raises
`InvalidFrame "Wrong frame length or invalid data: {line}"`). -/
def serialParse (line : List Char) : Except PyErr (Int × List Nat) :=
  match serialTry (splitLimit line 3) with
  | none => .error (.invalidFrame (msgInvalidFrame line))
  | some (fid, flen, dat) =>
    if (dat.length : Int) ≠ flen then .error (.invalidFrame (msgWrongLength line))
    else .ok (fid, dat)

/-- Character class `[.0-9]` of the candump timestamp group. -/
def tsChar (c : Char) : Bool := c = '.' || c.isDigit

/-- Character class `[0-9A-F]` of the candump id and data groups. -/
def isUHexChar (c : Char) : Bool := c.isDigit || ('A' ≤ c && c ≤ 'F')

/-- The suffix ` ([0-9A-F]+)\#([0-9A-F]*)` of `CandumpHandler.MSG_RE` after
a candidate position for the space: a maximal nonempty run of `[0-9A-F]`
(greedy `+`; deterministic because `#` is not in the class), the literal
`#`, then the maximal run of `[0-9A-F]` (greedy unanchored `*`). -/
def tailMatch (u : List Char) : Option (List Char × List Char) :=
  let g2 := u.takeWhile isUHexChar
  if g2 = [] then none
  else
    match u.dropWhile isUHexChar with
    | c :: w => if c = '#' then some (g2, w.takeWhile isUHexChar) else none
    | [] => none

/-- Regex alternative: the second candidate applies only if the first
(preferred) one failed. -/
def orElseO (a b : Option (List Char × List Char)) : Option (List Char × List Char) :=
  match a with
  | some r => some r
  | none => b

/-- The `.* ` part of `MSG_RE`: greedy `.*` prefers the longest prefix (the
latest space position is tried first, by recursing before testing the
current position), `.` does not cross a newline. -/
def scanStar : List Char → Option (List Char × List Char)
  | [] => none
  | c :: r =>
    orElseO (if c = nlChar then none else scanStar r)
      (if c = ' ' then tailMatch r else none)

/-- `CandumpHandler.MSG_RGX.match`: anchored at the start, literal `(`,
greedy nonempty group of `[.0-9]` (deterministic: `)` is not in the class),
literal `)`, then `.* ` and the id/data groups. -/
def msgRgxMatch (s : List Char) : Option (List Char × List Char × List Char) :=
  match s with
  | c :: rest =>
    if c = '(' then
      let g1 := rest.takeWhile tsChar
      if g1 = [] then none
      else
        match rest.dropWhile tsChar with
        | d :: rest2 =>
          if d = ')' then (scanStar rest2).map (fun r => (g1, r.1, r.2)) else none
        | [] => none
    else none
  | [] => none

/-- Python `line.strip(chr(10))`: remove leading and trailing newlines. -/
def stripNL (s : List Char) : List Char :=
  ((s.dropWhile (fun c => c == nlChar)).reverse.dropWhile (fun c => c == nlChar)).reverse

/-- Python `float()` on strings drawn from `[.0-9]+` (the only shapes the
regex group can produce): legal iff at most one dot and at least one
digit. -/
def pyFloatOk (s : List Char) : Bool :=
  (s.count '.' ≤ 1) && s.any Char.isDigit && s.all (fun c => c.isDigit || c = '.')

def floatVal (s : List Char) : ℚ :=
  let ip := s.takeWhile (fun c => c != '.')
  let fp := (s.dropWhile (fun c => c != '.')).drop 1
  (decVal ip : ℚ) + (decVal fp : ℚ) / (10 : ℚ) ^ fp.length

def pyFloat (s : List Char) : Option ℚ :=
  if pyFloatOk s then some (floatVal s) else none

def wrongFormatMsg (line : List Char) : List Char :=
  "Wrong format: ".data ++ qsingle :: (line ++ [qsingle])

/-- Modelled text of the `ValueError` message `bytes.fromhex` produces on
the odd-length all-hex strings reachable here (the exact runtime wording is
irrelevant to every claim; only the constructor matters). -/
def fromhexErrMsg (dat : List Char) : List Char :=
  "non-hexadecimal number found in fromhex() arg at position ".data ++
    Nat.toDigits 10 dat.length

def cantDecodeMsg (line dat : List Char) : List Char :=
  "Can".data ++ qsingle :: ("t decode message ".data ++ qsingle ::
    (line ++ qsingle :: (": ".data ++ qsingle :: (fromhexErrMsg dat ++ [qsingle]))))

instance exceptDecEq {ε α : Type} [DecidableEq ε] [DecidableEq α] :
    DecidableEq (Except ε α) := fun a b =>
  match a, b with
  | .error e, .error f =>
    if h : e = f then .isTrue (by rw [h]) else .isFalse (by intro hc; cases hc; exact h rfl)
  | .error _, .ok _ => .isFalse (by intro hc; cases hc)
  | .ok _, .error _ => .isFalse (by intro hc; cases hc)
  | .ok x, .ok y =>
    if h : x = y then .isTrue (by rw [h]) else .isFalse (by intro hc; cases hc; exact h rfl)

/-- Outcome of one `CandumpHandler` call: the returned frame or raised
exception, the `self.clock` value afterwards, and the list of durations
passed to a completed `time.sleep`. -/
structure ReplayResult where
  result : Except PyErr (Int × List Nat)
  clock : ℚ
  slept : List ℚ
deriving DecidableEq

def resultIsInvalidFrame (r : ReplayResult) : Bool :=
  match r.result with
  | .error e => pyErrIsInvalidFrame e
  | .ok _ => false

/-- `CandumpHandler.__init__` sets `self.clock = 0`. -/
def initClock : ℚ := 0

/-- `CandumpHandler.__init__` coerces a non-positive `speed_scale` to 1. -/
def mkSpeedScale (s : ℚ) : ℚ := if s ≤ 0 then 1 else s

/-- `CandumpHandler._parse_from_candump`, with `self.clock` and
`self.speed_scale` passed explicitly: strip newlines, regex match (failure
raises `InvalidFrame`), `float` the timestamp group (`ValueError` is not
caught), `time.sleep((abstime - clock) / speed_scale)` (a negative duration
makes `time.sleep` raise `ValueError` before the clock is assigned), assign
`self.clock = abstime`, `int(hex_id, 16)`, then `bytes.fromhex` on the data
group (failure raises `InvalidFrame`, after the clock was assigned). -/
def parseFromCandump (clock scale : ℚ) (rawLine : List Char) : ReplayResult :=
  let line := stripNL rawLine
  match msgRgxMatch line with
  | none => ⟨.error (.invalidFrame (wrongFormatMsg line)), clock, []⟩
  | some (g1, g2, g3) =>
    match pyFloat g1 with
    | none => ⟨.error .valueError, clock, []⟩
    | some abstime =>
      let d := (abstime - clock) / scale
      if d < 0 then ⟨.error .valueError, clock, []⟩
      else
        match pyIntHex g2 with
        | none => ⟨.error .valueError, abstime, [d]⟩
        | some canId =>
          match unhexCore g3 with
          | none => ⟨.error (.invalidFrame (cantDecodeMsg line g3)), abstime, [d]⟩
          | some canData => ⟨.ok ((canId : Int), canData), abstime, [d]⟩

/-- `CandumpHandler.get_message`: `readline` returning the empty string
(stream exhausted) raises `EOFError`; otherwise the line is parsed. -/
def getMessage (clock scale : ℚ) (rawLine : List Char) : ReplayResult :=
  if rawLine = [] then ⟨.error .eofError, clock, []⟩
  else parseFromCandump clock scale rawLine

/-- A serial line with exactly three colons at the token boundaries; the
fourth token `w` keeps any further colons. -/
def serialLineShape (t0 a b w : List Char) : List Char :=
  t0 ++ ':' :: (a ++ ':' :: (b ++ ':' :: w))

/-- Hex digit pairs written consecutively. -/
def joinPairs : List (Char × Char) → List Char
  | [] => []
  | p :: r => p.1 :: p.2 :: joinPairs r

/-- Hex digit pairs joined with colon separators. -/
def colonJoinPairs : List (Char × Char) → List Char
  | [] => []
  | [p] => [p.1, p.2]
  | p :: r => p.1 :: p.2 :: ':' :: colonJoinPairs r

def hexPairVal (p : Char × Char) : Nat := 16 * hexDV p.1 + hexDV p.2

/-- A candump line `(<ts>)<mid> <id>#<data>` (in a well-formed capture,
`mid` is the space-separated interface-name field the regex skips). -/
def candumpLineShape (ts mid idc dat : List Char) : List Char :=
  '(' :: (ts ++ ')' :: (mid ++ ' ' :: (idc ++ '#' :: dat)))

/-! ### List helper lemmas -/

lemma takeWhile_append_stop (p : Char → Bool) (xs : List Char) (y : Char) (r : List Char)
    (hx : ∀ c ∈ xs, p c = true) (hy : p y = false) :
    (xs ++ y :: r).takeWhile p = xs := by
  induction xs with
  | nil => simp [List.takeWhile, hy]
  | cons a t ih =>
    have ha : p a = true := hx a (by simp)
    simp only [List.cons_append, List.takeWhile, ha]
    show a :: List.takeWhile p (t ++ y :: r) = a :: t
    rw [ih (fun c hc => hx c (by simp [hc]))]

lemma dropWhile_append_stop (p : Char → Bool) (xs : List Char) (y : Char) (r : List Char)
    (hx : ∀ c ∈ xs, p c = true) (hy : p y = false) :
    (xs ++ y :: r).dropWhile p = y :: r := by
  induction xs with
  | nil => simp [List.dropWhile, hy]
  | cons a t ih =>
    have ha : p a = true := hx a (by simp)
    simp only [List.cons_append, List.dropWhile, ha]
    show List.dropWhile p (t ++ y :: r) = y :: r
    exact ih (fun c hc => hx c (by simp [hc]))

lemma takeWhile_all (p : Char → Bool) (xs : List Char) (hx : ∀ c ∈ xs, p c = true) :
    xs.takeWhile p = xs := by
  induction xs with
  | nil => rfl
  | cons a t ih =>
    have ha : p a = true := hx a (by simp)
    simp only [List.takeWhile, ha]
    rw [ih (fun c hc => hx c (by simp [hc]))]

lemma dropWhile_none (p : Char → Bool) (xs : List Char) (hx : ∀ c ∈ xs, p c = false) :
    xs.dropWhile p = xs := by
  cases xs with
  | nil => rfl
  | cons a t =>
    have ha : p a = false := hx a (by simp)
    simp [List.dropWhile, ha]

lemma not_mem_of_all (s : List Char) (P : Char → Bool) (x : Char)
    (h : ∀ c ∈ s, P c = true) (hx : P x = false) : x ∉ s := by
  intro hm
  rw [h x hm] at hx
  cases hx

lemma strip_of_none (p : Char → Bool) (s : List Char) (h : ∀ c ∈ s, p c = false) :
    ((s.dropWhile p).reverse.dropWhile p).reverse = s := by
  rw [dropWhile_none p s h,
    dropWhile_none p s.reverse (fun c hc => h c (List.mem_reverse.mp hc)),
    List.reverse_reverse]

lemma stripNL_id (s : List Char) (h : nlChar ∉ s) : stripNL s = s := by
  unfold stripNL
  exact strip_of_none _ s (fun c hc => by
    have : c ≠ nlChar := fun e => h (e ▸ hc)
    simp [this])

/-! ### Decimal / int() lemmas -/

lemma usTail_digits (s : List Char) (h : ∀ c ∈ s, c.isDigit = true) : usTail s = true := by
  induction s with
  | nil => rfl
  | cons c r ih =>
    have hc : c.isDigit = true := h c (by simp)
    have hc2 : c ≠ '_' := by
      intro e; rw [e] at hc; exact absurd hc (by decide)
    unfold usTail
    rw [if_neg hc2, hc, Bool.true_and]
    exact ih (fun d hd => h d (by simp [hd]))

lemma usOk_digits (s : List Char) (hne : s ≠ []) (h : ∀ c ∈ s, c.isDigit = true) :
    usOk s = true := by
  cases s with
  | nil => exact absurd rfl hne
  | cons c r =>
    have hc : c.isDigit = true := h c (by simp)
    show (c.isDigit && usTail r) = true
    rw [hc, Bool.true_and]
    exact usTail_digits r (fun d hd => h d (by simp [hd]))

lemma digit_not_ws (c : Char) (h : c.isDigit = true) : isPyWs c = false := by
  have h1 : c ≠ ' ' := by intro e; rw [e] at h; exact absurd h (by decide)
  have h2 : c ≠ Char.ofNat 9 := by intro e; rw [e] at h; exact absurd h (by decide)
  have h3 : c ≠ nlChar := by intro e; rw [e] at h; exact absurd h (by decide)
  have h4 : c ≠ Char.ofNat 13 := by intro e; rw [e] at h; exact absurd h (by decide)
  have h5 : c ≠ Char.ofNat 11 := by intro e; rw [e] at h; exact absurd h (by decide)
  have h6 : c ≠ Char.ofNat 12 := by intro e; rw [e] at h; exact absurd h (by decide)
  simp [isPyWs, h1, h2, h3, h4, h5, h6]

lemma pyStrip_digits (s : List Char) (h : ∀ c ∈ s, c.isDigit = true) : pyStrip s = s := by
  unfold pyStrip
  exact strip_of_none _ s (fun c hc => digit_not_ws c (h c hc))

lemma filter_underscore (s : List Char) (h : ∀ c ∈ s, c.isDigit = true) :
    s.filter (fun c => c != '_') = s := by
  apply List.filter_eq_self.mpr
  intro a ha
  have hd := h a ha
  have : a ≠ '_' := by intro e; rw [e] at hd; exact absurd hd (by decide)
  simp [this]

lemma pyIntDec_digits (s : List Char) (hne : s ≠ []) (h : ∀ c ∈ s, c.isDigit = true) :
    pyIntDec s = some ((decVal s : Int)) := by
  have hstrip : pyStrip s = s := pyStrip_digits s h
  have hcore : intCore s = some (decVal s) := by
    unfold intCore
    rw [if_pos (usOk_digits s hne h), filter_underscore s h]
  cases s with
  | nil => exact absurd rfl hne
  | cons c r =>
    have hc : c.isDigit = true := h c (by simp)
    have hplus : c ≠ '+' := by intro e; rw [e] at hc; exact absurd hc (by decide)
    have hminus : c ≠ '-' := by intro e; rw [e] at hc; exact absurd hc (by decide)
    simp only [pyIntDec, hstrip, List.head?]
    rw [if_neg (by simp [hplus]), if_neg (by simp [hminus]), hcore]
    rfl

/-! ### Hex lemmas -/

lemma isUHexChar_isSome (c : Char) (h : isUHexChar c = true) : (hexDigitVal? c).isSome := by
  by_cases hd : c.isDigit = true
  · simp [hexDigitVal?, hd]
  · have hA : ('A' ≤ c && c ≤ 'F') = true := by
      unfold isUHexChar at h
      simp only [Bool.or_eq_true] at h
      rcases h with h | h
      · exact absurd h hd
      · exact h
    have hA2 : 'A' ≤ c ∧ c ≤ 'F' := by simpa using hA
    have h1 : 'A' ≤ c := hA2.1
    have h2 : c ≤ 'F' := hA2.2
    have hlow : ¬ ('a' ≤ c) := by
      intro hc
      exact absurd (le_trans hc h2) (by decide)
    unfold hexDigitVal?
    rw [if_neg hd, if_neg (by simp [hlow]), if_pos (by simp [h1, h2])]
    rfl

lemma hexSome_ne_colon (c : Char) (h : (hexDigitVal? c).isSome) : c ≠ ':' := by
  intro e
  rw [e] at h
  exact absurd h (by decide)

lemma isUHexChar_vals (c : Char) (h : isUHexChar c = true) :
    isUHexChar c = true ∧ c ≠ ' ' ∧ c ≠ '#' ∧ c ≠ ')' ∧ c ≠ nlChar := by
  refine ⟨h, ?_, ?_, ?_, ?_⟩ <;>
    · intro e; rw [e] at h; exact absurd h (by decide)

lemma hexValAux_all (s : List Char) (h : ∀ c ∈ s, (hexDigitVal? c).isSome) :
    ∀ acc, hexValAux acc s = some (s.foldl (fun a c => 16 * a + hexDV c) acc) := by
  induction s with
  | nil => intro acc; rfl
  | cons c r ih =>
    intro acc
    obtain ⟨d, hd⟩ := Option.isSome_iff_exists.mp (h c (by simp))
    have hdv : hexDV c = d := by simp [hexDV, hd]
    simp only [hexValAux, hd, List.foldl_cons, hdv]
    exact ih (fun x hx => h x (by simp [hx])) _

lemma pyIntHex_hex (s : List Char) (hne : s ≠ []) (h : ∀ c ∈ s, (hexDigitVal? c).isSome) :
    pyIntHex s = some (hexValT s) := by
  unfold pyIntHex hexValT
  rw [if_neg hne]
  exact hexValAux_all s h 0

lemma unhexCore_joinPairs (pairs : List (Char × Char))
    (h : ∀ p ∈ pairs, (hexDigitVal? p.1).isSome ∧ (hexDigitVal? p.2).isSome) :
    unhexCore (joinPairs pairs) = some (pairs.map hexPairVal) := by
  induction pairs with
  | nil => rfl
  | cons p r ih =>
    obtain ⟨h1, h2⟩ := h p (by simp)
    obtain ⟨d1, hd1⟩ := Option.isSome_iff_exists.mp h1
    obtain ⟨d2, hd2⟩ := Option.isSome_iff_exists.mp h2
    have hv1 : hexDV p.1 = d1 := by simp [hexDV, hd1]
    have hv2 : hexDV p.2 = d2 := by simp [hexDV, hd2]
    have ihr := ih (fun q hq => h q (by simp [hq]))
    simp [joinPairs, unhexCore, hd1, hd2, ihr, hexPairVal, hv1, hv2]

lemma unhexCore_odd_aux :
    ∀ (n : Nat) (s : List Char), s.length ≤ n → s.length % 2 = 1 → unhexCore s = none := by
  intro n
  induction n with
  | zero =>
    intro s hle hodd
    have : s = [] := List.length_eq_zero.mp (Nat.le_zero.mp hle)
    rw [this] at hodd
    simp at hodd
  | succ n ih =>
    intro s hle hodd
    match s with
    | [] => simp at hodd
    | [c] => rfl
    | c1 :: c2 :: r =>
      have hr : unhexCore r = none := by
        apply ih r
        · simp at hle; omega
        · simp at hodd ⊢; omega
      cases h1 : hexDigitVal? c1 with
      | none => simp [unhexCore, h1]
      | some d1 =>
        cases h2 : hexDigitVal? c2 with
        | none => simp [unhexCore, h1, h2]
        | some d2 => simp [unhexCore, h1, h2, hr]

lemma unhexCore_odd (s : List Char) (hodd : s.length % 2 = 1) : unhexCore s = none :=
  unhexCore_odd_aux s.length s le_rfl hodd

lemma joinPairs_length (pairs : List (Char × Char)) : (joinPairs pairs).length = 2 * pairs.length := by
  induction pairs with
  | nil => rfl
  | cons p r ih => simp [joinPairs, ih]; omega

lemma joinPairs_all (pairs : List (Char × Char)) (P : Char → Bool)
    (h : ∀ p ∈ pairs, P p.1 = true ∧ P p.2 = true) :
    ∀ c ∈ joinPairs pairs, P c = true := by
  induction pairs with
  | nil => intro c hc; cases hc
  | cons p r ih =>
    intro c hc
    simp only [joinPairs, List.mem_cons] at hc
    rcases hc with rfl | rfl | hc
    · exact (h p (by simp)).1
    · exact (h p (by simp)).2
    · exact ih (fun q hq => h q (by simp [hq])) c hc

lemma colonJoinPairs_filter (pairs : List (Char × Char))
    (h : ∀ p ∈ pairs, (hexDigitVal? p.1).isSome ∧ (hexDigitVal? p.2).isSome) :
    (colonJoinPairs pairs).filter (fun c => c != ':') = joinPairs pairs := by
  induction pairs with
  | nil => rfl
  | cons p r ih =>
    obtain ⟨h1, h2⟩ := h p (by simp)
    have n1 : (p.1 != ':') = true := by simp [hexSome_ne_colon p.1 h1]
    have n2 : (p.2 != ':') = true := by simp [hexSome_ne_colon p.2 h2]
    cases r with
    | nil => simp [colonJoinPairs, joinPairs, List.filter, n1, n2]
    | cons q t =>
      have ihr := ih (fun x hx => h x (by simp [hx]))
      simp only [colonJoinPairs, joinPairs, List.filter, n1, n2] at ihr ⊢
      simp [ihr]

/-! ### Serial split lemmas -/

lemma breakColon_append (a r : List Char) (ha : ':' ∉ a) :
    breakColon (a ++ ':' :: r) = some (a, r) := by
  induction a with
  | nil => simp [breakColon]
  | cons c t ih =>
    have hc : c ≠ ':' := fun e => ha (by simp [e])
    have ht : ':' ∉ t := fun h => ha (by simp [h])
    simp [breakColon, hc, ih ht]

lemma splitLimit_shape (t0 u v w : List Char) (h0 : ':' ∉ t0) (hu : ':' ∉ u) (hv : ':' ∉ v) :
    splitLimit (serialLineShape t0 u v w) 3 = [t0, u, v, w] := by
  unfold serialLineShape
  show splitLimit _ (2 + 1) = _
  rw [splitLimit, breakColon_append _ _ h0]
  show _ :: splitLimit _ (1 + 1) = _
  rw [splitLimit, breakColon_append _ _ hu]
  show _ :: _ :: splitLimit _ (0 + 1) = _
  rw [splitLimit, breakColon_append _ _ hv]
  rfl

lemma digit_ne_colon (s : List Char) (h : ∀ c ∈ s, c.isDigit = true) : ':' ∉ s := by
  apply not_mem_of_all s Char.isDigit ':' h (by decide)

lemma append_no_colon (a b : List Char) (ha : ':' ∉ a) (hb : ':' ∉ b) : ':' ∉ a ++ b := by
  intro h
  rcases List.mem_append.mp h with h | h
  · exact ha h
  · exact hb h

lemma serialTry_shape (t0 pre2 ds pre3 ks w : List Char) (dat : List Nat)
    (h0 : ':' ∉ t0) (h2 : ':' ∉ pre2) (h2l : pre2.length = 3)
    (h3 : ':' ∉ pre3) (h3l : pre3.length = 4)
    (hds : ds ≠ []) (hdsd : ∀ c ∈ ds, c.isDigit = true)
    (hks : ks ≠ []) (hksd : ∀ c ∈ ks, c.isDigit = true)
    (hw : pyUnhexlify (w.filter (fun c => c != ':')) = some dat) :
    serialTry (splitLimit (serialLineShape t0 (pre2 ++ ds) (pre3 ++ ks) w) 3)
      = some ((decVal ds : Int), (decVal ks : Int), dat) := by
  rw [splitLimit_shape t0 (pre2 ++ ds) (pre3 ++ ks) w h0
    (append_no_colon _ _ h2 (digit_ne_colon ds hdsd))
    (append_no_colon _ _ h3 (digit_ne_colon ks hksd))]
  have hdrop2 : (pre2 ++ ds).drop 3 = ds := by
    rw [← h2l]; exact List.drop_left pre2 ds
  have hdrop3 : (pre3 ++ ks).drop 4 = ks := by
    rw [← h3l]; exact List.drop_left pre3 ks
  simp only [serialTry, List.get?, Option.bind_eq_bind, Option.some_bind, hdrop2, hdrop3,
    pyIntDec_digits ds hds hdsd, pyIntDec_digits ks hks hksd, hw]
  rfl

lemma serialParse_eq_of_try (line : List Char) (fid flen : Int) (dat : List Nat)
    (h : serialTry (splitLimit line 3) = some (fid, flen, dat)) :
    serialParse line =
      if (dat.length : Int) ≠ flen then .error (.invalidFrame (msgWrongLength line))
      else .ok (fid, dat) := by
  unfold serialParse
  rw [h]

lemma serialParse_ok_shape (t0 pre2 ds pre3 ks : List Char) (pairs : List (Char × Char))
    (h0 : ':' ∉ t0) (h2 : ':' ∉ pre2) (h2l : pre2.length = 3)
    (h3 : ':' ∉ pre3) (h3l : pre3.length = 4)
    (hds : ds ≠ []) (hdsd : ∀ c ∈ ds, c.isDigit = true)
    (hks : ks ≠ []) (hksd : ∀ c ∈ ks, c.isDigit = true)
    (hp : ∀ p ∈ pairs, (hexDigitVal? p.1).isSome ∧ (hexDigitVal? p.2).isSome)
    (hk : decVal ks = pairs.length) :
    serialParse (serialLineShape t0 (pre2 ++ ds) (pre3 ++ ks) (colonJoinPairs pairs))
      = .ok ((decVal ds : Int), pairs.map hexPairVal) := by
  have hw : pyUnhexlify ((colonJoinPairs pairs).filter (fun c => c != ':'))
      = some (pairs.map hexPairVal) := by
    unfold pyUnhexlify
    rw [colonJoinPairs_filter pairs hp]
    exact unhexCore_joinPairs pairs hp
  rw [serialParse_eq_of_try _ _ _ _
    (serialTry_shape t0 pre2 ds pre3 ks (colonJoinPairs pairs) (pairs.map hexPairVal)
      h0 h2 h2l h3 h3l hds hdsd hks hksd hw)]
  rw [if_neg (by simp [hk])]

lemma serialParse_mismatch_shape (t0 pre2 ds pre3 ks : List Char) (pairs : List (Char × Char))
    (h0 : ':' ∉ t0) (h2 : ':' ∉ pre2) (h2l : pre2.length = 3)
    (h3 : ':' ∉ pre3) (h3l : pre3.length = 4)
    (hds : ds ≠ []) (hdsd : ∀ c ∈ ds, c.isDigit = true)
    (hks : ks ≠ []) (hksd : ∀ c ∈ ks, c.isDigit = true)
    (hp : ∀ p ∈ pairs, (hexDigitVal? p.1).isSome ∧ (hexDigitVal? p.2).isSome)
    (hk : decVal ks ≠ pairs.length) :
    serialParse (serialLineShape t0 (pre2 ++ ds) (pre3 ++ ks) (colonJoinPairs pairs))
      = .error (.invalidFrame
          (msgWrongLength (serialLineShape t0 (pre2 ++ ds) (pre3 ++ ks) (colonJoinPairs pairs)))) := by
  have hw : pyUnhexlify ((colonJoinPairs pairs).filter (fun c => c != ':'))
      = some (pairs.map hexPairVal) := by
    unfold pyUnhexlify
    rw [colonJoinPairs_filter pairs hp]
    exact unhexCore_joinPairs pairs hp
  rw [serialParse_eq_of_try _ _ _ _
    (serialTry_shape t0 pre2 ds pre3 ks (colonJoinPairs pairs) (pairs.map hexPairVal)
      h0 h2 h2l h3 h3l hds hdsd hks hksd hw)]
  rw [if_pos (by simp; omega)]

lemma serialParse_badhex_shape (t0 pre2 ds pre3 ks w : List Char)
    (h0 : ':' ∉ t0) (h2 : ':' ∉ pre2) (h3 : ':' ∉ pre3)
    (hdsd : ∀ c ∈ ds, c.isDigit = true) (hksd : ∀ c ∈ ks, c.isDigit = true)
    (hw : pyUnhexlify (w.filter (fun c => c != ':')) = none) :
    serialParse (serialLineShape t0 (pre2 ++ ds) (pre3 ++ ks) w)
      = .error (.invalidFrame (msgInvalidFrame (serialLineShape t0 (pre2 ++ ds) (pre3 ++ ks) w))) := by
  unfold serialParse
  rw [splitLimit_shape t0 (pre2 ++ ds) (pre3 ++ ks) w h0
    (append_no_colon _ _ h2 (digit_ne_colon ds hdsd))
    (append_no_colon _ _ h3 (digit_ne_colon ks hksd))]
  have : serialTry [t0, pre2 ++ ds, pre3 ++ ks, w] = none := by
    simp only [serialTry, List.get?, Option.bind_eq_bind, Option.some_bind, hw]
    cases pyIntDec ((pre2 ++ ds).drop 3) with
    | none => rfl
    | some fid =>
      cases pyIntDec ((pre3 ++ ks).drop 4) with
      | none => rfl
      | some flen => simp
  rw [this]

/-! ### Candump matcher lemmas -/

lemma tailMatch_shape (idc dat : List Char) (hne : idc ≠ [])
    (hid : ∀ c ∈ idc, isUHexChar c = true) (hdat : ∀ c ∈ dat, isUHexChar c = true) :
    tailMatch (idc ++ '#' :: dat) = some (idc, dat) := by
  have ht : (idc ++ '#' :: dat).takeWhile isUHexChar = idc :=
    takeWhile_append_stop _ _ _ _ hid (by decide)
  have hd : (idc ++ '#' :: dat).dropWhile isUHexChar = '#' :: dat :=
    dropWhile_append_stop _ _ _ _ hid (by decide)
  have ha : dat.takeWhile isUHexChar = dat := takeWhile_all _ _ hdat
  unfold tailMatch
  rw [ht, hd, if_neg hne]
  simp [ha]

lemma orElseO_some (r : List Char × List Char) (b : Option (List Char × List Char)) :
    orElseO (some r) b = some r := rfl

lemma orElseO_none (b : Option (List Char × List Char)) : orElseO none b = b := rfl

lemma scanStar_no_space (v : List Char) (hv : ' ' ∉ v) : scanStar v = none := by
  induction v with
  | nil => rfl
  | cons c r ih =>
    have hr : scanStar r = none := ih (fun h => hv (by simp [h]))
    have hc : c ≠ ' ' := fun e => hv (by simp [e])
    simp only [scanStar, hr, ite_self, orElseO_none]
    rw [if_neg hc]

lemma scanStar_last (u v : List Char) (res : List Char × List Char)
    (hu : nlChar ∉ u) (hv : ' ' ∉ v) (ht : tailMatch v = some res) :
    scanStar (u ++ ' ' :: v) = some res := by
  induction u with
  | nil =>
    rw [List.nil_append]
    simp only [scanStar, scanStar_no_space v hv, ite_self, orElseO_none, if_true]
    exact ht
  | cons c t ih =>
    have hc : c ≠ nlChar := fun e => hu (by simp [e])
    have ihr : scanStar (t ++ ' ' :: v) = some res := ih (fun h => hu (by simp [h]))
    rw [List.cons_append]
    simp only [scanStar]
    rw [if_neg hc, ihr, orElseO_some]

lemma msgRgxMatch_shape (ts mid idc dat : List Char)
    (hts : ts ≠ []) (htsc : ∀ c ∈ ts, tsChar c = true)
    (hmid : nlChar ∉ mid)
    (hidne : idc ≠ []) (hid : ∀ c ∈ idc, isUHexChar c = true)
    (hdat : ∀ c ∈ dat, isUHexChar c = true) :
    msgRgxMatch (candumpLineShape ts mid idc dat) = some (ts, idc, dat) := by
  have h1 : (ts ++ ')' :: (mid ++ ' ' :: (idc ++ '#' :: dat))).takeWhile tsChar = ts :=
    takeWhile_append_stop _ _ _ _ htsc (by decide)
  have h2 : (ts ++ ')' :: (mid ++ ' ' :: (idc ++ '#' :: dat))).dropWhile tsChar
      = ')' :: (mid ++ ' '  :: (idc ++ '#' :: dat)) :=
    dropWhile_append_stop _ _ _ _ htsc (by decide)
  have hsp : ' ' ∉ idc ++ '#' :: dat := by
    intro h
    rcases List.mem_append.mp h with h | h
    · exact absurd (hid ' ' h) (by decide)
    · rcases List.mem_cons.mp h with h | h
      · cases h
      · exact absurd (hdat ' ' h) (by decide)
  have h3 : scanStar (mid ++ ' ' :: (idc ++ '#' :: dat)) = some (idc, dat) :=
    scanStar_last mid _ _ hmid hsp (tailMatch_shape idc dat hidne hid hdat)
  unfold candumpLineShape
  simp only [msgRgxMatch, if_true]
  rw [h1, h2, if_neg hts]
  show (if ')' = ')' then
      Option.map (fun r => (ts, r.1, r.2)) (scanStar (mid ++ ' ' :: (idc ++ '#' :: dat)))
    else none) = some (ts, idc, dat)
  rw [if_pos rfl, h3]
  rfl

/-! ### Candump parse lemmas -/

lemma candumpShape_no_nl (ts mid idc dat : List Char)
    (htsc : ∀ c ∈ ts, tsChar c = true) (hmid : nlChar ∉ mid)
    (hid : ∀ c ∈ idc, isUHexChar c = true) (hdat : ∀ c ∈ dat, isUHexChar c = true) :
    nlChar ∉ candumpLineShape ts mid idc dat := by
  unfold candumpLineShape
  intro h
  rcases List.mem_cons.mp h with h | h
  · cases h
  rcases List.mem_append.mp h with h | h
  · exact absurd (htsc _ h) (by decide)
  rcases List.mem_cons.mp h with h | h
  · cases h
  rcases List.mem_append.mp h with h | h
  · exact hmid h
  rcases List.mem_cons.mp h with h | h
  · cases h
  rcases List.mem_append.mp h with h | h
  · exact absurd (hid _ h) (by decide)
  rcases List.mem_cons.mp h with h | h
  · cases h
  · exact absurd (hdat _ h) (by decide)

lemma parseFromCandump_shape (clock scale : ℚ) (ts mid idc dat : List Char)
    (hts : ts ≠ []) (htsc : ∀ c ∈ ts, tsChar c = true)
    (hmid : nlChar ∉ mid)
    (hidne : idc ≠ []) (hid : ∀ c ∈ idc, isUHexChar c = true)
    (hdat : ∀ c ∈ dat, isUHexChar c = true)
    (hfl : pyFloatOk ts = true) :
    parseFromCandump clock scale (candumpLineShape ts mid idc dat) =
      (let line := candumpLineShape ts mid idc dat
      let d := (floatVal ts - clock) / scale
      if d < 0 then ⟨.error .valueError, clock, []⟩
      else
        match unhexCore dat with
        | none => ⟨.error (.invalidFrame (cantDecodeMsg line dat)), floatVal ts, [d]⟩
        | some canData => ⟨.ok ((hexValT idc : Int), canData), floatVal ts, [d]⟩) := by
  have hstrip : stripNL (candumpLineShape ts mid idc dat) = candumpLineShape ts mid idc dat :=
    stripNL_id _ (candumpShape_no_nl ts mid idc dat htsc hmid hid hdat)
  have hm := msgRgxMatch_shape ts mid idc dat hts htsc hmid hidne hid hdat
  have hxv : pyIntHex idc = some (hexValT idc) :=
    pyIntHex_hex idc hidne (fun c hc => isUHexChar_isSome c (hid c hc))
  unfold parseFromCandump
  dsimp only
  rw [hstrip, hm]
  dsimp only
  rw [show pyFloat ts = some (floatVal ts) from by unfold pyFloat; rw [if_pos hfl]]
  dsimp only
  rw [hxv]

lemma candump_neg_sleep (clock scale : ℚ) (ts mid idc dat : List Char)
    (hts : ts ≠ []) (htsc : ∀ c ∈ ts, tsChar c = true)
    (hmid : nlChar ∉ mid)
    (hidne : idc ≠ []) (hid : ∀ c ∈ idc, isUHexChar c = true)
    (hdat : ∀ c ∈ dat, isUHexChar c = true)
    (hfl : pyFloatOk ts = true)
    (hlt : floatVal ts < clock) (hsc : 0 < scale) :
    parseFromCandump clock scale (candumpLineShape ts mid idc dat)
      = ⟨.error .valueError, clock, []⟩ := by
  rw [parseFromCandump_shape clock scale ts mid idc dat hts htsc hmid hidne hid hdat hfl]
  dsimp only
  rw [if_pos (div_neg_of_neg_of_pos (by linarith) hsc)]

lemma candump_ok (clock scale : ℚ) (ts mid idc dat : List Char) (bs : List Nat)
    (hts : ts ≠ []) (htsc : ∀ c ∈ ts, tsChar c = true)
    (hmid : nlChar ∉ mid)
    (hidne : idc ≠ []) (hid : ∀ c ∈ idc, isUHexChar c = true)
    (hdat : ∀ c ∈ dat, isUHexChar c = true)
    (hfl : pyFloatOk ts = true)
    (hle : clock ≤ floatVal ts) (hsc : 0 < scale)
    (hunh : unhexCore dat = some bs) :
    parseFromCandump clock scale (candumpLineShape ts mid idc dat)
      = ⟨.ok ((hexValT idc : Int), bs), floatVal ts, [(floatVal ts - clock) / scale]⟩ := by
  rw [parseFromCandump_shape clock scale ts mid idc dat hts htsc hmid hidne hid hdat hfl]
  dsimp only
  rw [if_neg (not_lt.mpr (div_nonneg (by linarith) hsc.le)), hunh]

lemma candump_badhex (clock scale : ℚ) (ts mid idc dat : List Char)
    (hts : ts ≠ []) (htsc : ∀ c ∈ ts, tsChar c = true)
    (hmid : nlChar ∉ mid)
    (hidne : idc ≠ []) (hid : ∀ c ∈ idc, isUHexChar c = true)
    (hdat : ∀ c ∈ dat, isUHexChar c = true)
    (hfl : pyFloatOk ts = true)
    (hle : clock ≤ floatVal ts) (hsc : 0 < scale)
    (hunh : unhexCore dat = none) :
    parseFromCandump clock scale (candumpLineShape ts mid idc dat)
      = ⟨.error (.invalidFrame (cantDecodeMsg (candumpLineShape ts mid idc dat) dat)),
          floatVal ts, [(floatVal ts - clock) / scale]⟩ := by
  rw [parseFromCandump_shape clock scale ts mid idc dat hts htsc hmid hidne hid hdat hfl]
  dsimp only
  rw [if_neg (not_lt.mpr (div_nonneg (by linarith) hsc.le)), hunh]

lemma candump_wrongformat (clock scale : ℚ) (l : List Char)
    (h : msgRgxMatch (stripNL l) = none) :
    parseFromCandump clock scale l
      = ⟨.error (.invalidFrame (wrongFormatMsg (stripNL l))), clock, []⟩ := by
  unfold parseFromCandump
  dsimp only
  rw [h]

lemma candump_floaterr (clock scale : ℚ) (ts mid idc dat : List Char)
    (hts : ts ≠ []) (htsc : ∀ c ∈ ts, tsChar c = true)
    (hmid : nlChar ∉ mid)
    (hidne : idc ≠ []) (hid : ∀ c ∈ idc, isUHexChar c = true)
    (hdat : ∀ c ∈ dat, isUHexChar c = true)
    (hfl : pyFloatOk ts = false) :
    parseFromCandump clock scale (candumpLineShape ts mid idc dat)
      = ⟨.error .valueError, clock, []⟩ := by
  have hstrip : stripNL (candumpLineShape ts mid idc dat) = candumpLineShape ts mid idc dat :=
    stripNL_id _ (candumpShape_no_nl ts mid idc dat htsc hmid hid hdat)
  have hm := msgRgxMatch_shape ts mid idc dat hts htsc hmid hidne hid hdat
  unfold parseFromCandump
  dsimp only
  rw [hstrip, hm]
  dsimp only
  rw [show pyFloat ts = none from by unfold pyFloat; rw [if_neg (by simp [hfl])]]

/-! ### Concrete timestamp values -/

lemma floatVal00 : floatVal ['0', '.', '0'] = 0 := by
  unfold floatVal
  rw [show ['0', '.', '0'].takeWhile (fun c => c != '.') = ['0'] from by decide]
  rw [show (['0', '.', '0'].dropWhile (fun c => c != '.')).drop 1 = ['0'] from by decide]
  dsimp only
  rw [show decVal ['0'] = 0 from by decide]
  norm_num

lemma floatVal05 : floatVal ['0', '.', '5'] = 1 / 2 := by
  unfold floatVal
  rw [show ['0', '.', '5'].takeWhile (fun c => c != '.') = ['0'] from by decide]
  rw [show (['0', '.', '5'].dropWhile (fun c => c != '.')).drop 1 = ['5'] from by decide]
  dsimp only
  rw [show decVal ['0'] = 0 from by decide, show decVal ['5'] = 5 from by decide]
  norm_num

lemma floatVal10 : floatVal ['1', '.', '0'] = 1 := by
  unfold floatVal
  rw [show ['1', '.', '0'].takeWhile (fun c => c != '.') = ['1'] from by decide]
  rw [show (['1', '.', '0'].dropWhile (fun c => c != '.')).drop 1 = ['0'] from by decide]
  dsimp only
  rw [show decVal ['1'] = 1 from by decide, show decVal ['0'] = 0 from by decide]
  norm_num

lemma floatVal50 : floatVal ['5', '.', '0'] = 5 := by
  unfold floatVal
  rw [show ['5', '.', '0'].takeWhile (fun c => c != '.') = ['5'] from by decide]
  rw [show (['5', '.', '0'].dropWhile (fun c => c != '.')).drop 1 = ['0'] from by decide]
  dsimp only
  rw [show decVal ['5'] = 5 from by decide, show decVal ['0'] = 0 from by decide]
  norm_num

/-! ### Claim theorems -/

/-- Claim C1 (amended): when the decoded timestamp of a capture line is
earlier than the replay clock, the computed pacing delay is negative and is
passed directly to `time.sleep`, which raises a bare `ValueError` (not
`InvalidFrame`): the call errors, performs no wait, and leaves the clock
unchanged; the delay is not clamped to zero. -/
theorem c1_negative_delay_valueerror (clock scale : ℚ) (ts mid idc dat : List Char)
    (hts : ts ≠ []) (htsc : ∀ c ∈ ts, tsChar c = true) (hmid : nlChar ∉ mid)
    (hidne : idc ≠ []) (hid : ∀ c ∈ idc, isUHexChar c = true)
    (hdat : ∀ c ∈ dat, isUHexChar c = true)
    (hfl : pyFloatOk ts = true) (hlt : floatVal ts < clock) (hsc : 0 < scale) :
    parseFromCandump clock scale (candumpLineShape ts mid idc dat)
      = ⟨.error .valueError, clock, []⟩
    ∧ pyErrIsInvalidFrame .valueError = false :=
  ⟨candump_neg_sleep clock scale ts mid idc dat hts htsc hmid hidne hid hdat hfl hlt hsc, rfl⟩

theorem c1_negative_delay_valueerror_witness :
    parseFromCandump 1 1 (candumpLineShape "0.5".data " can0".data "1".data "".data)
      = ⟨.error .valueError, 1, []⟩
    ∧ pyErrIsInvalidFrame .valueError = false :=
  c1_negative_delay_valueerror 1 1 "0.5".data " can0".data "1".data "".data
    (by decide) (by decide) (by decide) (by decide) (by decide) (by decide) (by decide)
    (by norm_num [floatVal05]) (by norm_num)

/-- Claim C1, counterexample to the claim as stated: replaying `(1.0) can0 1#`
and then `(0.5) can0 1#` raises `ValueError` on the second call (the
out-of-order timestamp is not treated as a zero wait), and no sleep occurs. -/
theorem c1_counterexample :
    (parseFromCandump ((parseFromCandump initClock 1 "(1.0) can0 1#".data).clock) 1
        "(0.5) can0 1#".data).result = .error .valueError
    ∧ (parseFromCandump ((parseFromCandump initClock 1 "(1.0) can0 1#".data).clock) 1
        "(0.5) can0 1#".data).slept = [] := by
  have e1 : "(1.0) can0 1#".data
      = candumpLineShape "1.0".data " can0".data "1".data "".data := by decide
  have e2 : "(0.5) can0 1#".data
      = candumpLineShape "0.5".data " can0".data "1".data "".data := by decide
  have h1 := candump_ok initClock 1 "1.0".data " can0".data "1".data "".data []
    (by decide) (by decide) (by decide) (by decide) (by decide) (by decide) (by decide)
    (by norm_num [initClock, floatVal10]) (by norm_num) (by decide)
  have hc1 : (parseFromCandump initClock 1 "(1.0) can0 1#".data).clock = 1 := by
    rw [e1, h1]
    exact floatVal10
  have h2 := candump_neg_sleep 1 1 "0.5".data " can0".data "1".data "".data
    (by decide) (by decide) (by decide) (by decide) (by decide) (by decide) (by decide)
    (by norm_num [floatVal05]) (by norm_num)
  rw [hc1, e2, h2]
  exact ⟨rfl, rfl⟩

/-- Claim C2: for every serial line of the valid shape
`FRAME:ID=<n>:LEN=<k>:<k colon-separated two-digit hex byte pairs>`, the
serial decoder returns the pair (`n` parsed as decimal, the hex-decoded
payload), and the payload length equals the declared length `k`. -/
theorem c2_serial_valid_lines (ds ks : List Char) (pairs : List (Char × Char))
    (hds : ds ≠ []) (hdsd : ∀ c ∈ ds, c.isDigit = true)
    (hks : ks ≠ []) (hksd : ∀ c ∈ ks, c.isDigit = true)
    (hp : ∀ p ∈ pairs, (hexDigitVal? p.1).isSome ∧ (hexDigitVal? p.2).isSome)
    (hk : decVal ks = pairs.length) :
    serialParse (serialLineShape "FRAME".data ("ID=".data ++ ds) ("LEN=".data ++ ks)
        (colonJoinPairs pairs))
      = .ok ((decVal ds : Int), pairs.map hexPairVal)
    ∧ (pairs.map hexPairVal).length = decVal ks := by
  constructor
  · exact serialParse_ok_shape "FRAME".data "ID=".data ds "LEN=".data ks pairs
      (by decide) (by decide) (by decide) (by decide) (by decide) hds hdsd hks hksd hp hk
  · rw [List.length_map, hk]

theorem c2_serial_valid_lines_witness :
    serialParse "FRAME:ID=246:LEN=2:AA:BB".data = .ok (246, [170, 187]) := by
  have h := c2_serial_valid_lines "246".data "2".data [('A', 'A'), ('B', 'B')]
    (by decide) (by decide) (by decide) (by decide) (by decide) (by decide)
  rw [show "FRAME:ID=246:LEN=2:AA:BB".data
    = serialLineShape "FRAME".data ("ID=".data ++ "246".data) ("LEN=".data ++ "2".data)
        (colonJoinPairs [('A', 'A'), ('B', 'B')]) from by decide]
  rw [h.1]
  decide

/-- Claim C3: for every capture line of the valid shape
`(<t>) <iface> <HEXID>#<HEXDATA>` with uppercase hex digits (and a
well-formed timestamp no earlier than the replay clock, so that the pacing
sleep succeeds), the replay decoder returns the frame whose id is `HEXID`
parsed base 16 and whose payload is `HEXDATA` decoded as hex byte pairs; an
empty data field is valid and yields an empty payload. -/
theorem c3_candump_valid_lines (clock scale : ℚ) (ts mid idc : List Char)
    (pairs : List (Char × Char))
    (hts : ts ≠ []) (htsc : ∀ c ∈ ts, tsChar c = true) (hmid : nlChar ∉ mid)
    (hidne : idc ≠ []) (hid : ∀ c ∈ idc, isUHexChar c = true)
    (hp : ∀ p ∈ pairs, isUHexChar p.1 = true ∧ isUHexChar p.2 = true)
    (hfl : pyFloatOk ts = true) (hle : clock ≤ floatVal ts) (hsc : 0 < scale) :
    (parseFromCandump clock scale (candumpLineShape ts mid idc (joinPairs pairs))).result
      = .ok ((hexValT idc : Int), pairs.map hexPairVal) := by
  have hdat : ∀ c ∈ joinPairs pairs, isUHexChar c = true := joinPairs_all pairs _ hp
  have hunh : unhexCore (joinPairs pairs) = some (pairs.map hexPairVal) :=
    unhexCore_joinPairs pairs
      (fun p hpm => ⟨isUHexChar_isSome p.1 (hp p hpm).1, isUHexChar_isSome p.2 (hp p hpm).2⟩)
  rw [candump_ok clock scale ts mid idc (joinPairs pairs) (pairs.map hexPairVal)
    hts htsc hmid hidne hid hdat hfl hle hsc hunh]

theorem c3_candump_valid_lines_witness :
    (parseFromCandump 0 1 "(0.0) can0 123#".data).result = .ok (291, []) := by
  have h := c3_candump_valid_lines 0 1 "0.0".data " can0".data "123".data []
    (by decide) (by decide) (by decide) (by decide) (by decide) (by decide) (by decide)
    (by norm_num [floatVal00]) (by norm_num)
  rw [show "(0.0) can0 123#".data
    = candumpLineShape "0.0".data " can0".data "123".data (joinPairs []) from by decide, h]
  decide

/-- Claim C4: every failure of the serial parser is an `InvalidFrame` whose
message embeds the original raw line (no bare exception escapes, no frame is
returned), and a declared-length/decoded-length mismatch on an otherwise
well-formed line always produces that error; in particular
`FRAME:ID=1:LEN=2:AA` errors. -/
theorem c4_serial_error_handling :
    (∀ line e, serialParse line = .error e →
      ∃ m p, e = .invalidFrame m ∧ m = p ++ pyBytesRepr line)
    ∧ (∀ t0 pre2 pre3 ds ks : List Char, ∀ pairs : List (Char × Char),
        ':' ∉ t0 → ':' ∉ pre2 → pre2.length = 3 → ':' ∉ pre3 → pre3.length = 4 →
        ds ≠ [] → (∀ c ∈ ds, c.isDigit = true) →
        ks ≠ [] → (∀ c ∈ ks, c.isDigit = true) →
        (∀ p ∈ pairs, (hexDigitVal? p.1).isSome ∧ (hexDigitVal? p.2).isSome) →
        decVal ks ≠ pairs.length →
        serialParse (serialLineShape t0 (pre2 ++ ds) (pre3 ++ ks) (colonJoinPairs pairs))
          = .error (.invalidFrame (msgWrongLength
              (serialLineShape t0 (pre2 ++ ds) (pre3 ++ ks) (colonJoinPairs pairs))))) := by
  constructor
  · intro line e h
    unfold serialParse at h
    split at h
    · injection h with h2
      exact ⟨msgInvalidFrame line, "Invalid frame ".data, h2.symm, rfl⟩
    · split at h
      · injection h with h2
        exact ⟨msgWrongLength line, "Wrong frame length or invalid data: ".data, h2.symm, rfl⟩
      · exact absurd h (by simp)
  · intro t0 pre2 pre3 ds ks pairs h0 h2 h2l h3 h3l hds hdsd hks hksd hp hk
    exact serialParse_mismatch_shape t0 pre2 ds pre3 ks pairs h0 h2 h2l h3 h3l
      hds hdsd hks hksd hp hk

theorem c4_serial_error_handling_witness :
    (∃ m p, (PyErr.invalidFrame (msgWrongLength "FRAME:ID=1:LEN=2:AA".data)) = .invalidFrame m
      ∧ m = p ++ pyBytesRepr "FRAME:ID=1:LEN=2:AA".data)
    ∧ serialParse (serialLineShape "FRAME".data ("ID=".data ++ "1".data)
        ("LEN=".data ++ "2".data) (colonJoinPairs [('A', 'A')]))
      = .error (.invalidFrame (msgWrongLength (serialLineShape "FRAME".data
          ("ID=".data ++ "1".data) ("LEN=".data ++ "2".data) (colonJoinPairs [('A', 'A')])))) := by
  constructor
  · exact c4_serial_error_handling.1 "FRAME:ID=1:LEN=2:AA".data _ (by decide)
  · exact c4_serial_error_handling.2 "FRAME".data "ID=".data "LEN=".data "1".data "2".data
      [('A', 'A')] (by decide) (by decide) (by decide) (by decide) (by decide) (by decide)
      (by decide) (by decide) (by decide) (by decide) (by decide)

/-- Claim C5, counterexample to the claim as stated: the capture line
`(0.0) can0 123#GG` has non-hex characters in its data field, yet
`next_frame()` does not raise: the unanchored pattern matches an empty data
group and a frame with id 0x123 and empty payload is returned. -/
theorem c5_counterexample :
    (parseFromCandump 0 1 "(0.0) can0 123#GG".data).result = .ok (291, []) := by
  have hstrip : stripNL "(0.0) can0 123#GG".data = "(0.0) can0 123#GG".data := by decide
  have hm : msgRgxMatch "(0.0) can0 123#GG".data
      = some ("0.0".data, "123".data, []) := by decide
  unfold parseFromCandump
  dsimp only
  rw [hstrip, hm]
  dsimp only
  rw [show pyFloat "0.0".data = some (floatVal "0.0".data) from by
    unfold pyFloat; rw [if_pos (by decide)]]
  dsimp only
  rw [if_neg (by norm_num [floatVal00]),
    show pyIntHex "123".data = some 291 from by decide]
  rfl

/-- Claim C5 (amended): in the serial format, data whose colon-stripped hex
decode fails (odd digit count or a non-hex character) always raises
`InvalidFrame`; in the capture format, a data field whose leading run of
uppercase hex digits has odd length raises `InvalidFrame` (e.g.
`(0.0) can0 123#A`), but a non-hex character merely terminates the matched
data group of the unanchored pattern, so such capture lines can instead
return a frame with a truncated payload. -/
theorem c5_hex_validation :
    (∀ t0 pre2 pre3 ds ks w : List Char,
        ':' ∉ t0 → ':' ∉ pre2 → ':' ∉ pre3 →
        (∀ c ∈ ds, c.isDigit = true) → (∀ c ∈ ks, c.isDigit = true) →
        pyUnhexlify (w.filter (fun c => c != ':')) = none →
        serialParse (serialLineShape t0 (pre2 ++ ds) (pre3 ++ ks) w)
          = .error (.invalidFrame
              (msgInvalidFrame (serialLineShape t0 (pre2 ++ ds) (pre3 ++ ks) w))))
    ∧ (∀ clock scale : ℚ, ∀ ts mid idc dat : List Char,
        ts ≠ [] → (∀ c ∈ ts, tsChar c = true) → nlChar ∉ mid →
        idc ≠ [] → (∀ c ∈ idc, isUHexChar c = true) → (∀ c ∈ dat, isUHexChar c = true) →
        pyFloatOk ts = true → clock ≤ floatVal ts → 0 < scale → dat.length % 2 = 1 →
        (parseFromCandump clock scale (candumpLineShape ts mid idc dat)).result
          = .error (.invalidFrame (cantDecodeMsg (candumpLineShape ts mid idc dat) dat))) := by
  constructor
  · intro t0 pre2 pre3 ds ks w h0 h2 h3 hdsd hksd hw
    exact serialParse_badhex_shape t0 pre2 ds pre3 ks w h0 h2 h3 hdsd hksd hw
  · intro clock scale ts mid idc dat h1 h2 h3 h4 h5 h6 h7 h8 h9 h10
    rw [candump_badhex clock scale ts mid idc dat h1 h2 h3 h4 h5 h6 h7 h8 h9
      (unhexCore_odd dat h10)]

theorem c5_hex_validation_witness :
    serialParse (serialLineShape "FRAME".data ("ID=".data ++ "1".data)
        ("LEN=".data ++ "1".data) "A".data)
      = .error (.invalidFrame (msgInvalidFrame (serialLineShape "FRAME".data
          ("ID=".data ++ "1".data) ("LEN=".data ++ "1".data) "A".data)))
    ∧ (parseFromCandump 0 1
        (candumpLineShape "0.0".data " can0".data "123".data "A".data)).result
      = .error (.invalidFrame (cantDecodeMsg
          (candumpLineShape "0.0".data " can0".data "123".data "A".data) "A".data)) := by
  constructor
  · exact c5_hex_validation.1 "FRAME".data "ID=".data "LEN=".data "1".data "1".data "A".data
      (by decide) (by decide) (by decide) (by decide) (by decide) (by decide)
  · exact c5_hex_validation.2 0 1 "0.0".data " can0".data "123".data "A".data
      (by decide) (by decide) (by decide) (by decide) (by decide) (by decide) (by decide)
      (by norm_num [floatVal00]) (by norm_num) (by decide)

/-- Claim C6: for every successfully decoded capture line with timestamp t,
the replay source sleeps exactly (t − last_timestamp) / speed_scale before
returning the frame, and the clock (last_timestamp) starts at 0 at
construction. -/
theorem c6_replay_pacing (clock scale : ℚ) (ts mid idc dat : List Char) (bs : List Nat)
    (hts : ts ≠ []) (htsc : ∀ c ∈ ts, tsChar c = true) (hmid : nlChar ∉ mid)
    (hidne : idc ≠ []) (hid : ∀ c ∈ idc, isUHexChar c = true)
    (hdat : ∀ c ∈ dat, isUHexChar c = true)
    (hfl : pyFloatOk ts = true) (hle : clock ≤ floatVal ts) (hsc : 0 < scale)
    (hunh : unhexCore dat = some bs) :
    parseFromCandump clock scale (candumpLineShape ts mid idc dat)
      = ⟨.ok ((hexValT idc : Int), bs), floatVal ts, [(floatVal ts - clock) / scale]⟩
    ∧ initClock = 0 :=
  ⟨candump_ok clock scale ts mid idc dat bs hts htsc hmid hidne hid hdat hfl hle hsc hunh,
    rfl⟩

theorem c6_replay_pacing_witness :
    parseFromCandump 0 2 (candumpLineShape "1.0".data " can0".data "1".data "".data)
      = ⟨.ok (1, []), 1, [1 / 2]⟩ ∧ initClock = 0 := by
  have h := c6_replay_pacing 0 2 "1.0".data " can0".data "1".data "".data []
    (by decide) (by decide) (by decide) (by decide) (by decide) (by decide) (by decide)
    (by norm_num [floatVal10]) (by norm_num) (by decide)
  refine ⟨?_, h.2⟩
  rw [h.1]
  norm_num [floatVal10, show hexValT "1".data = 1 from by decide]

/-- Claim C7, counterexample to the claim as stated: the capture line
`(5.0) can0 123#A` (odd hex digit count) makes `next_frame()` raise
`InvalidFrame`, yet the replay clock has already been advanced from its
initial value 0 to 5 — the clock is not left unchanged on a decode error. -/
theorem c7_counterexample :
    resultIsInvalidFrame (parseFromCandump initClock 1 "(5.0) can0 123#A".data) = true
    ∧ (parseFromCandump initClock 1 "(5.0) can0 123#A".data).clock = 5
    ∧ (5 : ℚ) ≠ initClock := by
  have e : "(5.0) can0 123#A".data
      = candumpLineShape "5.0".data " can0".data "123".data "A".data := by decide
  have h := candump_badhex initClock 1 "5.0".data " can0".data "123".data "A".data
    (by decide) (by decide) (by decide) (by decide) (by decide) (by decide) (by decide)
    (by norm_num [initClock, floatVal50]) (by norm_num) (by decide)
  refine ⟨?_, ?_, by norm_num [initClock]⟩
  · rw [e, h]
    rfl
  · rw [e, h]
    exact floatVal50

/-- Claim C7 (amended): the replay clock is updated once the regex match,
the float conversion and the pacing sleep have succeeded, before the
payload is hex-decoded: a line that fails the regex raises `InvalidFrame`
with the clock unchanged, but a matching line whose data group fails hex
decoding (odd digit count) raises `InvalidFrame` with the clock already
advanced to that line's timestamp. -/
theorem c7_clock_update_discipline :
    (∀ clock scale : ℚ, ∀ l : List Char, msgRgxMatch (stripNL l) = none →
        parseFromCandump clock scale l
          = ⟨.error (.invalidFrame (wrongFormatMsg (stripNL l))), clock, []⟩)
    ∧ (∀ clock scale : ℚ, ∀ ts mid idc dat : List Char,
        ts ≠ [] → (∀ c ∈ ts, tsChar c = true) → nlChar ∉ mid →
        idc ≠ [] → (∀ c ∈ idc, isUHexChar c = true) → (∀ c ∈ dat, isUHexChar c = true) →
        pyFloatOk ts = true → clock ≤ floatVal ts → 0 < scale → dat.length % 2 = 1 →
        resultIsInvalidFrame (parseFromCandump clock scale (candumpLineShape ts mid idc dat))
            = true
        ∧ (parseFromCandump clock scale (candumpLineShape ts mid idc dat)).clock
            = floatVal ts) := by
  constructor
  · exact fun clock scale l h => candump_wrongformat clock scale l h
  · intro clock scale ts mid idc dat h1 h2 h3 h4 h5 h6 h7 h8 h9 h10
    rw [candump_badhex clock scale ts mid idc dat h1 h2 h3 h4 h5 h6 h7 h8 h9
      (unhexCore_odd dat h10)]
    exact ⟨rfl, rfl⟩

theorem c7_clock_update_discipline_witness :
    parseFromCandump 0 1 "garbage".data
      = ⟨.error (.invalidFrame (wrongFormatMsg (stripNL "garbage".data))), 0, []⟩
    ∧ (resultIsInvalidFrame (parseFromCandump 0 1
          (candumpLineShape "5.0".data " can0".data "123".data "A".data)) = true
      ∧ (parseFromCandump 0 1
          (candumpLineShape "5.0".data " can0".data "123".data "A".data)).clock
          = floatVal "5.0".data) := by
  constructor
  · exact c7_clock_update_discipline.1 0 1 "garbage".data (by decide)
  · exact c7_clock_update_discipline.2 0 1 "5.0".data " can0".data "123".data "A".data
      (by decide) (by decide) (by decide) (by decide) (by decide) (by decide) (by decide)
      (by norm_num [floatVal50]) (by norm_num) (by decide)

/-- Claim C8: when `readline` yields no line (stream exhausted), the replay
source raises `EOFError`, a terminal signal distinct from the
`InvalidFrame` decode failure. -/
theorem c8_end_of_stream (clock scale : ℚ) :
    getMessage clock scale [] = ⟨.error .eofError, clock, []⟩
    ∧ pyErrIsInvalidFrame .eofError = false
    ∧ pyErrIsEOF .eofError = true := by
  refine ⟨?_, rfl, rfl⟩
  unfold getMessage
  rw [if_pos rfl]

/-- Claim C9: the serial parser never validates the literal markers `FRAME`,
`ID=` and `LEN=` — it slices 3 characters off the second token and 4 off the
third and decimal-parses the remainders, so any line whose second token is
any 3 colon-free characters followed by a decimal and whose third token is
any 4 colon-free characters followed by a decimal (with matching data) is
decoded as if well-formed. -/
theorem c9_markers_not_validated (t0 pre2 pre3 ds ks : List Char) (pairs : List (Char × Char))
    (h0 : ':' ∉ t0) (h2 : ':' ∉ pre2) (h2l : pre2.length = 3)
    (h3 : ':' ∉ pre3) (h3l : pre3.length = 4)
    (hds : ds ≠ []) (hdsd : ∀ c ∈ ds, c.isDigit = true)
    (hks : ks ≠ []) (hksd : ∀ c ∈ ks, c.isDigit = true)
    (hp : ∀ p ∈ pairs, (hexDigitVal? p.1).isSome ∧ (hexDigitVal? p.2).isSome)
    (hk : decVal ks = pairs.length) :
    serialParse (serialLineShape t0 (pre2 ++ ds) (pre3 ++ ks) (colonJoinPairs pairs))
      = .ok ((decVal ds : Int), pairs.map hexPairVal) :=
  serialParse_ok_shape t0 pre2 ds pre3 ks pairs h0 h2 h2l h3 h3l hds hdsd hks hksd hp hk

theorem c9_markers_not_validated_witness :
    serialParse "JUNK:XY=246:ABC=2:AA:BB".data = .ok (246, [170, 187]) := by
  have h := c9_markers_not_validated "JUNK".data "XY=".data "ABC=".data "246".data "2".data
    [('A', 'A'), ('B', 'B')] (by decide) (by decide) (by decide) (by decide) (by decide)
    (by decide) (by decide) (by decide) (by decide) (by decide) (by decide)
  rw [show "JUNK:XY=246:ABC=2:AA:BB".data
    = serialLineShape "JUNK".data ("XY=".data ++ "246".data) ("ABC=".data ++ "2".data)
        (colonJoinPairs [('A', 'A'), ('B', 'B')]) from by decide]
  rw [h]
  decide

/-- Claim C10: the timestamp group of the capture pattern admits more than
one dot, and the float conversion is not guarded, so `(1.2.3) can0 123#AA`
matches the pattern yet makes `next_frame()` raise a bare `ValueError` from
the float parse instead of `InvalidFrame`, with the clock unchanged. -/
theorem c10_malformed_timestamp_valueerror :
    msgRgxMatch (stripNL "(1.2.3) can0 123#AA".data)
      = some ("1.2.3".data, "123".data, "AA".data)
    ∧ parseFromCandump 0 1 "(1.2.3) can0 123#AA".data = ⟨.error .valueError, 0, []⟩
    ∧ pyErrIsInvalidFrame .valueError = false := by
  refine ⟨by decide, ?_, rfl⟩
  rw [show "(1.2.3) can0 123#AA".data
    = candumpLineShape "1.2.3".data " can0".data "123".data "AA".data from by decide]
  exact candump_floaterr 0 1 "1.2.3".data " can0".data "123".data "AA".data
    (by decide) (by decide) (by decide) (by decide) (by decide) (by decide) (by decide)
